import Mathlib

/-!
Verification of the lobste.rs-filtered RSS worker (`src/index.js`).

The development shallowly embeds the worker's pure logic in Lean:

* JS numbers that matter here (scores and timestamps) are either an integer
  or `NaN`, modelled by `JsNum`.
* `JSON.parse` and `parseInt` are runtime primitives; they are modelled by an
  executable recursive-descent parser (`jsonParse`) and a digit scanner
  (`parseIntStr`).  JSON numbers are modelled as integers: the score endpoint
  returns integer-like scores and no claim depends on fractional literals.
* Network effects are modelled by explicit response traces: a fetch attempt
  either rejects with an error message (`FetchResponse.netError`) or resolves
  with a body text (`FetchResponse.ok`).
* `setTimeout` sleeps and fetch attempts are counted in the `FetchOutcome`
  record instead of being performed.
-/

/-- A JavaScript number as used by the worker: an integer or `NaN`.
(`Date.getTime` returns integer milliseconds or `NaN`; `parseInt` returns an
integer or `NaN`.) -/
inductive JsNum where
  | nan
  | int (n : Int)
deriving Repr, DecidableEq

/-- Values produced by `JSON.parse`.  JSON numbers are restricted to integers
(see the module docstring). -/
inductive JsValue where
  | jnull
  | jbool (b : Bool)
  | jnum (n : Int)
  | jstr (s : String)
  | jarr (elems : List JsValue)
  | jobj (fields : List (String × JsValue))

/-- Is this value JSON `null`? -/
def JsValue.isNull : JsValue → Bool
  | .jnull => true
  | _ => false

/-- Does `needle` occur at the head of `hay` (exact characters)? -/
def headMatches : List Char → List Char → Bool
  | [], _ => true
  | _ :: _, [] => false
  | n :: ns, h :: hs => n == h && headMatches ns hs

/-- Does `needle` occur anywhere inside `hay`?  Models
`String.prototype.includes`. -/
def containsSeq (needle : List Char) : List Char → Bool
  | [] => headMatches needle []
  | c :: t => headMatches needle (c :: t) || containsSeq needle t

/-- Models `s.includes(sub)`. -/
def includes (s sub : String) : Bool :=
  containsSeq sub.data s.data

/-- `RSSProcessor.isThrottledResponse`:
`text.includes("Throttled") || text.includes("Rate limit")`. -/
def isThrottledResponse (text : String) : Bool :=
  includes text "Throttled" || includes text "Rate limit"

/-! ### A model of `JSON.parse`

A fuel-indexed recursive-descent parser over the characters of the body.
Parse failures carry a message; following the V8 messages that the worker's
catch clause inspects, a failure at an unexpected character contains
`"Unexpected token"` and a failure at the end of the input is
`"Unexpected end of JSON input"`. -/

/-- JSON whitespace characters. -/
def isJsonWs (c : Char) : Bool :=
  c == ' ' || c == '\t' || c == '\n' || c == '\r'

/-- Drop leading JSON whitespace. -/
def skipWs : List Char → List Char
  | [] => []
  | c :: cs => if isJsonWs c then skipWs cs else c :: cs

/-- Parse-error message for an unexpected character. -/
def unexpectedToken (c : Char) : String :=
  "Unexpected token " ++ String.singleton c ++ " in JSON"

/-- Parse-error message for truncated input. -/
def unexpectedEnd : String :=
  "Unexpected end of JSON input"

/-- The character `{`. -/
def lbrace : Char := Char.ofNat 123

/-- The character `}`. -/
def rbrace : Char := Char.ofNat 125

/-- The character `'`. -/
def apos : Char := Char.ofNat 39

/-- Hexadecimal digit value, if any. -/
def hexVal (c : Char) : Option Nat :=
  if '0' ≤ c && c ≤ '9' then some (c.toNat - 48)
  else if 'a' ≤ c && c ≤ 'f' then some (c.toNat - 87)
  else if 'A' ≤ c && c ≤ 'F' then some (c.toNat - 70)
  else none

/-- Parse the remainder of a JSON string literal (the opening quote has been
consumed), returning the decoded string and the rest of the input. -/
def parseStringLit (fuel : Nat) (cs : List Char) : Except String (String × List Char) :=
  match fuel with
  | 0 => .error unexpectedEnd
  | fuel + 1 =>
    match cs with
    | [] => .error unexpectedEnd
    | '"' :: rest => .ok ("", rest)
    | '\\' :: rest =>
      match rest with
      | [] => .error unexpectedEnd
      | e :: rest2 =>
        let esc : Except String (Char × List Char) :=
          if e == '"' then .ok ('"', rest2)
          else if e == '\\' then .ok ('\\', rest2)
          else if e == '/' then .ok ('/', rest2)
          else if e == 'b' then .ok ('\x08', rest2)
          else if e == 'f' then .ok ('\x0c', rest2)
          else if e == 'n' then .ok ('\n', rest2)
          else if e == 'r' then .ok ('\r', rest2)
          else if e == 't' then .ok ('\t', rest2)
          else if e == 'u' then
            match rest2 with
            | h1 :: h2 :: h3 :: h4 :: rest3 =>
              match hexVal h1, hexVal h2, hexVal h3, hexVal h4 with
              | some a, some b, some c, some d =>
                .ok (Char.ofNat (((a * 16 + b) * 16 + c) * 16 + d), rest3)
              | _, _, _, _ => .error (unexpectedToken e)
            | _ => .error unexpectedEnd
          else .error (unexpectedToken e)
        match esc with
        | .error m => .error m
        | .ok (c, rest3) =>
          match parseStringLit fuel rest3 with
          | .error m => .error m
          | .ok (s, rest4) => .ok (String.singleton c ++ s, rest4)
    | c :: rest =>
      match parseStringLit fuel rest with
      | .error m => .error m
      | .ok (s, rest2) => .ok (String.singleton c ++ s, rest2)

/-- Parse a run of decimal digits into a natural number accumulator. -/
def parseDigits : List Char → Nat → Nat × List Char
  | [], acc => (acc, [])
  | c :: cs, acc =>
    if c.isDigit then parseDigits cs (acc * 10 + (c.toNat - 48))
    else (acc, c :: cs)

mutual

/-- Parse one JSON value. -/
def parseValue (fuel : Nat) (cs : List Char) : Except String (JsValue × List Char) :=
  match fuel with
  | 0 => .error unexpectedEnd
  | fuel + 1 =>
    match skipWs cs with
    | [] => .error unexpectedEnd
    | c :: rest =>
      if c == '"' then
        match parseStringLit fuel rest with
        | .error m => .error m
        | .ok (s, rest2) => .ok (.jstr s, rest2)
      else if c == lbrace then
        parseMembers fuel (skipWs rest) [] true
      else if c == '[' then
        parseElems fuel (skipWs rest) [] true
      else if c == '-' then
        match rest with
        | d :: rest2 =>
          if d.isDigit then
            let (n, rest3) := parseDigits rest2 (d.toNat - 48)
            .ok (.jnum (-(n : Int)), rest3)
          else .error (unexpectedToken c)
        | [] => .error unexpectedEnd
      else if c.isDigit then
        let (n, rest2) := parseDigits rest (c.toNat - 48)
        .ok (.jnum (n : Int), rest2)
      else if headMatches "true".data (c :: rest) then
        .ok (.jbool true, (c :: rest).drop 4)
      else if headMatches "false".data (c :: rest) then
        .ok (.jbool false, (c :: rest).drop 5)
      else if headMatches "null".data (c :: rest) then
        .ok (.jnull, (c :: rest).drop 4)
      else .error (unexpectedToken c)

/-- Parse the members of a JSON object (after the opening brace, whitespace
skipped).  `first` is true when no member has been read yet. -/
def parseMembers (fuel : Nat) (cs : List Char) (acc : List (String × JsValue))
    (first : Bool) : Except String (JsValue × List Char) :=
  match fuel with
  | 0 => .error unexpectedEnd
  | fuel + 1 =>
    match cs with
    | [] => .error unexpectedEnd
    | c :: rest =>
      if c == rbrace && first then .ok (.jobj acc.reverse, rest)
      else
        match skipWs (c :: rest) with
        | '"' :: rest2 =>
          match parseStringLit fuel rest2 with
          | .error m => .error m
          | .ok (key, rest3) =>
            match skipWs rest3 with
            | ':' :: rest4 =>
              match parseValue fuel rest4 with
              | .error m => .error m
              | .ok (v, rest5) =>
                match skipWs rest5 with
                | ',' :: rest6 => parseMembers fuel (skipWs rest6) ((key, v) :: acc) false
                | d :: rest6 =>
                  if d == rbrace then .ok (.jobj ((key, v) :: acc).reverse, rest6)
                  else .error (unexpectedToken d)
                | [] => .error unexpectedEnd
            | d :: _ => .error (unexpectedToken d)
            | [] => .error unexpectedEnd
        | d :: _ => .error (unexpectedToken d)
        | [] => .error unexpectedEnd

/-- Parse the elements of a JSON array (after the opening bracket, whitespace
skipped).  `first` is true when no element has been read yet. -/
def parseElems (fuel : Nat) (cs : List Char) (acc : List JsValue)
    (first : Bool) : Except String (JsValue × List Char) :=
  match fuel with
  | 0 => .error unexpectedEnd
  | fuel + 1 =>
    match cs with
    | [] => .error unexpectedEnd
    | c :: rest =>
      if c == ']' && first then .ok (.jarr acc.reverse, rest)
      else
        match parseValue fuel (c :: rest) with
        | .error m => .error m
        | .ok (v, rest2) =>
          match skipWs rest2 with
          | ',' :: rest3 => parseElems fuel (skipWs rest3) (v :: acc) false
          | ']' :: rest3 => .ok (.jarr (v :: acc).reverse, rest3)
          | d :: _ => .error (unexpectedToken d)
          | [] => .error unexpectedEnd

end

/-- Models `JSON.parse`: parse one value, then require only trailing
whitespace. -/
def jsonParse (s : String) : Except String JsValue :=
  match parseValue (s.length + 1) s.data with
  | .error m => .error m
  | .ok (v, rest) =>
    match skipWs rest with
    | [] => .ok v
    | c :: _ => .error (unexpectedToken c)

/-! ### A model of `const { score } = data` and `parseInt(score, 10)` -/

/-- Models the destructuring `const { score } = data`.  Destructuring `null`
throws a `TypeError` (whose message does not contain `"Unexpected token"`);
on an object the `score` property is looked up (JSON.parse keeps the last
duplicate key, hence the reversed search); any other value has no own `score`
property, so `score` is `undefined`, modelled as `none`. -/
def getScoreField : JsValue → Except String (Option JsValue)
  | .jnull => .error "Cannot destructure property score of data as it is null."
  | .jobj fields => .ok (((fields.reverse).find? (fun f => f.1 == "score")).map (·.2))
  | _ => .ok none

/-- JS `ToString` for the modelled values, as invoked by `parseInt`.
An array stringifies as its comma-joined elements with `null` becoming the
empty string; an object stringifies as `"[object Object]"`. -/
def jsValueToString : JsValue → String
  | .jnull => "null"
  | .jbool b => cond b "true" "false"
  | .jnum n => toString n
  | .jstr s => s
  | .jobj _ => "[object Object]"
  | .jarr xs =>
    String.intercalate "," (xs.attach.map fun x =>
      if x.1.isNull then "" else jsValueToString x.1)
termination_by v => sizeOf v
decreasing_by
  have := List.sizeOf_lt_of_mem x.2
  simp only [JsValue.jarr.sizeOf_spec]
  omega

/-- Models `parseInt(s, 10)`: skip leading whitespace, read an optional sign
and then the longest prefix of decimal digits; no digits gives `NaN`. -/
def parseIntStr (s : String) : JsNum :=
  let cs := skipWs s.data
  let signed : Bool × List Char :=
    match cs with
    | '-' :: r => (true, r)
    | '+' :: r => (false, r)
    | r => (false, r)
  let digits := signed.2.takeWhile Char.isDigit
  if digits.isEmpty then .nan
  else
    let n : Nat := digits.foldl (fun a c => a * 10 + (c.toNat - 48)) 0
    .int (if signed.1 then -(n : Int) else (n : Int))

/-- Models `parseInt(score, 10)` applied to the destructured `score` value
(`none` is JS `undefined`).  `parseInt` first converts its argument with
`ToString`; for an integer JS number that round trip returns the number
itself, which the model takes directly. -/
def parseIntOfScore : Option JsValue → JsNum
  | some (.jnum n) => .int n
  | some (.jstr s) => parseIntStr s
  | some v => parseIntStr (jsValueToString v)
  | none => parseIntStr "undefined"

/-- The success path of `fetchArticleScore` on a response body:
`data = JSON.parse(text)`, `const { score } = data`, `parseInt(score, 10)`.
An error is a thrown exception, carrying its message. -/
def bodyScore (body : String) : Except String JsNum :=
  match jsonParse body with
  | .error m => .error m
  | .ok data =>
    match getScoreField data with
    | .error m => .error m
    | .ok score => .ok (parseIntOfScore score)

/-! ### The score fetcher -/

/-- The configuration record (`CONFIG` in the source). -/
structure Config where
  feedUrl : String
  minimumScore : Int
  cacheMaxAge : Nat
  cacheKey : String
  rateLimitDelay : Nat
  maxRetries : Nat
  retryDelay : Nat
deriving Repr, DecidableEq

/-- The worker's `CONFIG` object. -/
def CONFIG : Config :=
  { feedUrl := "https://lobste.rs/rss"
    minimumScore := 10
    cacheMaxAge := 1800
    cacheKey := "lobsters-rss-feed"
    rateLimitDelay := 200
    maxRetries := 3
    retryDelay := 1000 }

/-- The outcome of one `await fetch(...)` / `await response.text()` pair:
either the promise rejects with an error message, or it resolves with the
response body text. -/
inductive FetchResponse where
  | netError (msg : String)
  | ok (body : String)

/-- What a whole `fetchArticleScore` run produces: the resolved score, the
total milliseconds passed to `sleep`, and the number of fetch attempts made. -/
structure FetchOutcome where
  score : JsNum
  slept : Nat
  attempts : Nat
deriving Repr, DecidableEq

/-- `RSSProcessor.fetchArticleScore(url, retryCount)`.  `resp i` is the
outcome of the fetch made with `retryCount = i`.  Mirrors the source:
a throttle-marker body retries with delay `retryDelay * 2 ^ retryCount`
while `retryCount < maxRetries`, else resolves `0`; otherwise the body is
parsed and the coerced score returned; any thrown error is caught, retried
under the same bound when its message contains `"Unexpected token"`, and
otherwise resolves `0`. -/
def fetchArticleScore (cfg : Config) (resp : Nat → FetchResponse)
    (retryCount : Nat) : FetchOutcome :=
  match resp retryCount with
  | .netError msg =>
    if h : retryCount < cfg.maxRetries ∧ includes msg "Unexpected token" = true then
      let r := fetchArticleScore cfg resp (retryCount + 1)
      ⟨r.score, cfg.retryDelay * 2 ^ retryCount + r.slept, 1 + r.attempts⟩
    else
      ⟨.int 0, 0, 1⟩
  | .ok body =>
    if isThrottledResponse body then
      if h : retryCount < cfg.maxRetries then
        let r := fetchArticleScore cfg resp (retryCount + 1)
        ⟨r.score, cfg.retryDelay * 2 ^ retryCount + r.slept, 1 + r.attempts⟩
      else
        ⟨.int 0, 0, 1⟩
    else
      match bodyScore body with
      | .ok v => ⟨v, 0, 1⟩
      | .error msg =>
        if h : retryCount < cfg.maxRetries ∧ includes msg "Unexpected token" = true then
          let r := fetchArticleScore cfg resp (retryCount + 1)
          ⟨r.score, cfg.retryDelay * 2 ^ retryCount + r.slept, 1 + r.attempts⟩
        else
          ⟨.int 0, 0, 1⟩
termination_by cfg.maxRetries - retryCount
decreasing_by
  · omega
  · omega
  · omega

/-! ### Unfolding lemmas for `fetchArticleScore` -/

/-- Success path: a non-throttled body whose score computation succeeds
resolves immediately with that score, no sleeping, one attempt. -/
theorem fetchArticleScore_success {cfg : Config} {resp : Nat → FetchResponse}
    {rc : Nat} {body : String} {v : JsNum}
    (h1 : resp rc = .ok body) (h2 : isThrottledResponse body = false)
    (h3 : bodyScore body = .ok v) :
    fetchArticleScore cfg resp rc = ⟨v, 0, 1⟩ := by
  rw [fetchArticleScore, h1]
  simp [h2, h3]

/-- Throttled body with attempts remaining: sleep the backoff delay and
retry. -/
theorem fetchArticleScore_throttle_retry {cfg : Config} {resp : Nat → FetchResponse}
    {rc : Nat} {body : String}
    (h1 : resp rc = .ok body) (h2 : isThrottledResponse body = true)
    (h3 : rc < cfg.maxRetries) :
    fetchArticleScore cfg resp rc =
      ⟨(fetchArticleScore cfg resp (rc + 1)).score,
       cfg.retryDelay * 2 ^ rc + (fetchArticleScore cfg resp (rc + 1)).slept,
       1 + (fetchArticleScore cfg resp (rc + 1)).attempts⟩ := by
  rw [fetchArticleScore, h1]
  simp [h2, h3]

/-- Throttled body with attempts exhausted: resolve score `0`. -/
theorem fetchArticleScore_throttle_exhausted {cfg : Config} {resp : Nat → FetchResponse}
    {rc : Nat} {body : String}
    (h1 : resp rc = .ok body) (h2 : isThrottledResponse body = true)
    (h3 : ¬ rc < cfg.maxRetries) :
    fetchArticleScore cfg resp rc = ⟨.int 0, 0, 1⟩ := by
  rw [fetchArticleScore, h1]
  simp [h2, h3]

/-- Backoff arithmetic: a run that sees `k` throttled bodies from attempt `rc`
on and then a successful body resolves with that body's score, having slept
exactly the backoff delays of attempts `rc, rc+1, ..., rc+k-1`. -/
theorem fetchArticleScore_run (cfg : Config) (resp : Nat → FetchResponse)
    (k : Nat) (rc : Nat) (bodies : Nat → String) (v : JsNum)
    (hbound : rc + k ≤ cfg.maxRetries)
    (hthr : ∀ i, i < k → resp (rc + i) = .ok (bodies (rc + i)) ∧
      isThrottledResponse (bodies (rc + i)) = true)
    (hsucc : resp (rc + k) = .ok (bodies (rc + k)))
    (hnothr : isThrottledResponse (bodies (rc + k)) = false)
    (hscore : bodyScore (bodies (rc + k)) = .ok v) :
    fetchArticleScore cfg resp rc =
      ⟨v, ∑ i in Finset.Ico rc (rc + k), cfg.retryDelay * 2 ^ i, k + 1⟩ := by
  induction k generalizing rc with
  | zero =>
    rw [fetchArticleScore_success (by simpa using hsucc) (by simpa using hnothr)
      (by simpa using hscore)]
    simp
  | succ k ih =>
    have h0 := hthr 0 (Nat.succ_pos k)
    rw [fetchArticleScore_throttle_retry (by simpa using h0.1) (by simpa using h0.2)
      (by omega)]
    have hshift : ∀ i : Nat, rc + 1 + i = rc + (i + 1) := by omega
    have hrec := ih (rc + 1) (by omega)
      (fun i hi => by rw [hshift i]; exact hthr (i + 1) (by omega))
      (by rw [hshift k]; exact hsucc)
      (by rw [hshift k]; exact hnothr)
      (by rw [hshift k]; exact hscore)
    rw [hrec]
    simp only [FetchOutcome.mk.injEq]
    refine ⟨by trivial, ?_, by omega⟩
    rw [Finset.sum_eq_sum_Ico_succ_bot (show rc < rc + (k + 1) by omega)]
    have : rc + 1 + k = rc + (k + 1) := by omega
    rw [this]

/-- A run in which every attempt sees a throttled body resolves `0`, having
slept every remaining backoff delay and made one fetch per retry budget plus
the initial one. -/
theorem fetchArticleScore_all_throttled {cfg : Config} {resp : Nat → FetchResponse}
    (bodies : Nat → String) (rc : Nat)
    (hle : rc ≤ cfg.maxRetries)
    (hthr : ∀ i, resp i = .ok (bodies i) ∧ isThrottledResponse (bodies i) = true) :
    fetchArticleScore cfg resp rc =
      ⟨.int 0, ∑ i in Finset.Ico rc cfg.maxRetries, cfg.retryDelay * 2 ^ i,
       cfg.maxRetries + 1 - rc⟩ := by
  by_cases h : rc < cfg.maxRetries
  · have : cfg.maxRetries - (rc + 1) < cfg.maxRetries - rc := by omega
    rw [fetchArticleScore_throttle_retry (hthr rc).1 (hthr rc).2 h,
      fetchArticleScore_all_throttled bodies (rc + 1) (by omega) hthr]
    simp only [FetchOutcome.mk.injEq]
    refine ⟨by trivial, ?_, by omega⟩
    rw [Finset.sum_eq_sum_Ico_succ_bot h]
  · rw [fetchArticleScore_throttle_exhausted (hthr rc).1 (hthr rc).2 h]
    have h1 : Finset.Ico rc cfg.maxRetries = ∅ := Finset.Ico_eq_empty (by omega)
    simp only [FetchOutcome.mk.injEq, h1, Finset.sum_empty]
    refine ⟨by trivial, by trivial, by omega⟩
termination_by cfg.maxRetries - rc

/-- Caught-error path (network) with a retryable message and attempts left:
sleep and retry. -/
theorem fetchArticleScore_netError_retry {cfg : Config} {resp : Nat → FetchResponse}
    {rc : Nat} {msg : String}
    (h1 : resp rc = .netError msg)
    (h : rc < cfg.maxRetries ∧ includes msg "Unexpected token" = true) :
    fetchArticleScore cfg resp rc =
      ⟨(fetchArticleScore cfg resp (rc + 1)).score,
       cfg.retryDelay * 2 ^ rc + (fetchArticleScore cfg resp (rc + 1)).slept,
       1 + (fetchArticleScore cfg resp (rc + 1)).attempts⟩ := by
  rw [fetchArticleScore, h1]
  simp [h]

/-- Caught-error path (network) without a further retry: resolve `0`. -/
theorem fetchArticleScore_netError_stop {cfg : Config} {resp : Nat → FetchResponse}
    {rc : Nat} {msg : String}
    (h1 : resp rc = .netError msg)
    (h : ¬ (rc < cfg.maxRetries ∧ includes msg "Unexpected token" = true)) :
    fetchArticleScore cfg resp rc = ⟨.int 0, 0, 1⟩ := by
  rw [fetchArticleScore, h1]
  simp only [dif_neg h]

/-- Caught-error path (thrown while parsing the body) with a retryable
message and attempts left: sleep and retry. -/
theorem fetchArticleScore_parseError_retry {cfg : Config} {resp : Nat → FetchResponse}
    {rc : Nat} {body msg : String}
    (h1 : resp rc = .ok body) (h2 : isThrottledResponse body = false)
    (h3 : bodyScore body = .error msg)
    (h : rc < cfg.maxRetries ∧ includes msg "Unexpected token" = true) :
    fetchArticleScore cfg resp rc =
      ⟨(fetchArticleScore cfg resp (rc + 1)).score,
       cfg.retryDelay * 2 ^ rc + (fetchArticleScore cfg resp (rc + 1)).slept,
       1 + (fetchArticleScore cfg resp (rc + 1)).attempts⟩ := by
  rw [fetchArticleScore, h1]
  simp [h2, h3, h]

/-- Caught-error path (thrown while parsing the body) without a further
retry: resolve `0`. -/
theorem fetchArticleScore_parseError_stop {cfg : Config} {resp : Nat → FetchResponse}
    {rc : Nat} {body msg : String}
    (h1 : resp rc = .ok body) (h2 : isThrottledResponse body = false)
    (h3 : bodyScore body = .error msg)
    (h : ¬ (rc < cfg.maxRetries ∧ includes msg "Unexpected token" = true)) :
    fetchArticleScore cfg resp rc = ⟨.int 0, 0, 1⟩ := by
  rw [fetchArticleScore, h1]
  simp [h2, h3, h]

/-! ### Claim C1 -/

/-- C1: if the endpoint returns a throttle-marker body exactly `k` times with
`k < maxRetries` and then a JSON body whose `score` field is the integer `v`,
then `fetchArticleScore` resolves `v` and the total slept backoff delay is
the sum of the first `k` delays, the `i`-th being `retryDelay * 2 ^ i`. -/
theorem fetchArticleScore_k_throttles_then_success
    (cfg : Config) (resp : Nat → FetchResponse) (bodies : Nat → String)
    (k : Nat) (v : Int) (data : JsValue)
    (hk : k < cfg.maxRetries)
    (hthr : ∀ i, i < k → resp i = .ok (bodies i) ∧
      isThrottledResponse (bodies i) = true)
    (hsucc : resp k = .ok (bodies k))
    (hnothr : isThrottledResponse (bodies k) = false)
    (hparse : jsonParse (bodies k) = .ok data)
    (hfield : getScoreField data = .ok (some (.jnum v))) :
    (fetchArticleScore cfg resp 0).score = .int v ∧
    (fetchArticleScore cfg resp 0).slept =
      ∑ i in Finset.range k, cfg.retryDelay * 2 ^ i := by
  have hscore : bodyScore (bodies k) = .ok (.int v) := by
    simp only [bodyScore, hparse, hfield]
    rfl
  have h := fetchArticleScore_run cfg resp k 0 bodies (.int v)
    (by omega) (fun i hi => by simpa using hthr i hi) (by simpa using hsucc)
    (by simpa using hnothr) (by simpa using hscore)
  rw [h]
  refine ⟨rfl, ?_⟩
  rw [Finset.range_eq_Ico]
  norm_num

/-- Concrete bodies for the C1 witness: one throttle, then a score of 15. -/
def c1Bodies : Nat → String :=
  fun i => if i = 0 then "Throttled: slow down" else "\x7b\"score\": 15\x7d"

/-- Concrete responses for the C1 witness. -/
def c1Resp : Nat → FetchResponse := fun i => .ok (c1Bodies i)

/-- Witness for C1 at `k = 1`, `v = 15` under `CONFIG`. -/
theorem fetchArticleScore_k_throttles_then_success_witness :
    1 < CONFIG.maxRetries ∧
    ((fetchArticleScore CONFIG c1Resp 0).score = .int 15 ∧
     (fetchArticleScore CONFIG c1Resp 0).slept =
       ∑ i in Finset.range 1, CONFIG.retryDelay * 2 ^ i) :=
  ⟨by decide,
   fetchArticleScore_k_throttles_then_success CONFIG c1Resp c1Bodies 1 15
     (JsValue.jobj [("score", JsValue.jnum 15)])
     (by decide)
     (fun i hi => by interval_cases i; exact ⟨rfl, by decide⟩)
     rfl (by decide) rfl rfl⟩

/-! ### Claim C2 -/

/-- C2 counterexample: under `CONFIG` (`maxRetries = 3`), a run in which every
response is a throttle-marker body makes 4 fetch attempts, not
`maxRetries = 3`: the initial attempt is followed by `maxRetries` retries. -/
theorem fetchArticleScore_attempts_ne_maxRetries :
    (fetchArticleScore CONFIG (fun _ => .ok "Throttled") 0).attempts ≠
      CONFIG.maxRetries := by
  rw [fetchArticleScore_all_throttled (fun _ => "Throttled") 0 (Nat.zero_le _)
    (fun i => ⟨rfl, by show isThrottledResponse "Throttled" = true; decide⟩)]
  decide

/-- C2 (amended): if the endpoint returns a throttle-marker body on every
request, `fetchArticleScore` resolves `0` and the total number of fetch
attempts made is exactly `maxRetries + 1` (the initial attempt plus
`maxRetries` retries). -/
theorem fetchArticleScore_exhaustion_returns_zero
    (cfg : Config) (resp : Nat → FetchResponse) (bodies : Nat → String)
    (hthr : ∀ i, resp i = .ok (bodies i) ∧ isThrottledResponse (bodies i) = true) :
    (fetchArticleScore cfg resp 0).score = .int 0 ∧
    (fetchArticleScore cfg resp 0).attempts = cfg.maxRetries + 1 := by
  rw [fetchArticleScore_all_throttled bodies 0 (Nat.zero_le _) hthr]
  exact ⟨rfl, by dsimp only; omega⟩

/-- Witness for the amended C2 under `CONFIG` with every body `"Rate limit"`. -/
theorem fetchArticleScore_exhaustion_returns_zero_witness :
    (fetchArticleScore CONFIG (fun _ => .ok "Rate limit") 0).score = .int 0 ∧
    (fetchArticleScore CONFIG (fun _ => .ok "Rate limit") 0).attempts =
      CONFIG.maxRetries + 1 :=
  fetchArticleScore_exhaustion_returns_zero CONFIG _ (fun _ => "Rate limit")
    (fun i => ⟨rfl, by show isThrottledResponse "Rate limit" = true; decide⟩)

/-! ### Claim C10 -/

/-- C10: a response body that is valid JSON with an integer `score` field but
contains a throttle-marker substring is treated as throttled — the marker
check precedes `JSON.parse`.  With every response such a body the run retries
with full backoff and resolves `0`, never the parsed score. -/
theorem fetchArticleScore_marker_precedence
    (cfg : Config) (resp : Nat → FetchResponse) (bodies : Nat → String)
    (hresp : ∀ i, resp i = .ok (bodies i))
    (hthr : ∀ i, isThrottledResponse (bodies i) = true)
    (hjson : ∀ i, ∃ data v, jsonParse (bodies i) = .ok data ∧
      getScoreField data = .ok (some (.jnum v))) :
    (fetchArticleScore cfg resp 0).score = .int 0 ∧
    (fetchArticleScore cfg resp 0).attempts = cfg.maxRetries + 1 ∧
    (fetchArticleScore cfg resp 0).slept =
      ∑ i in Finset.range cfg.maxRetries, cfg.retryDelay * 2 ^ i := by
  rw [fetchArticleScore_all_throttled bodies 0 (Nat.zero_le _)
    (fun i => ⟨hresp i, hthr i⟩)]
  refine ⟨rfl, by dsimp only; omega, ?_⟩
  dsimp only
  rw [Finset.range_eq_Ico]

/-- The C10 witness body: valid JSON carrying `score: 42` and the word
`Throttled`. -/
def c10Body : String := "\x7b\"score\": 42, \"status\": \"Throttled\"\x7d"

/-- Witness for C10: with every response `c10Body` the run resolves `0`
(not 42) after `maxRetries + 1` attempts and full backoff. -/
theorem fetchArticleScore_marker_precedence_witness :
    (fetchArticleScore CONFIG (fun _ => .ok c10Body) 0).score = .int 0 ∧
    (fetchArticleScore CONFIG (fun _ => .ok c10Body) 0).attempts =
      CONFIG.maxRetries + 1 ∧
    (fetchArticleScore CONFIG (fun _ => .ok c10Body) 0).slept =
      ∑ i in Finset.range CONFIG.maxRetries, CONFIG.retryDelay * 2 ^ i :=
  fetchArticleScore_marker_precedence CONFIG _ (fun _ => c10Body)
    (fun i => rfl)
    (fun i => by show isThrottledResponse c10Body = true; decide)
    (fun i => ⟨.jobj [("score", .jnum 42), ("status", .jstr "Throttled")], 42,
      rfl, rfl⟩)

/-! ### Claim C4 -/

/-- Every run's total sleep is bounded by the remaining backoff schedule and
its attempt count by the remaining retry budget. -/
theorem fetchArticleScore_bounds (cfg : Config) (resp : Nat → FetchResponse)
    (rc : Nat) :
    (fetchArticleScore cfg resp rc).slept ≤
      ∑ i in Finset.Ico rc cfg.maxRetries, cfg.retryDelay * 2 ^ i ∧
    (fetchArticleScore cfg resp rc).attempts ≤ cfg.maxRetries - rc + 1 := by
  induction rc using fetchArticleScore.induct cfg resp with
  | case1 rc msg h1 h ih =>
    obtain ⟨ih1, ih2⟩ := ih
    rw [fetchArticleScore_netError_retry h1 h]
    dsimp only
    have hs := Finset.sum_eq_sum_Ico_succ_bot h.1
      (fun i => cfg.retryDelay * 2 ^ i)
    have h1lt := h.1
    exact ⟨by rw [hs]; exact Nat.add_le_add_left ih1 _, by omega⟩
  | case2 rc msg h1 h =>
    rw [fetchArticleScore_netError_stop h1 h]
    dsimp only
    exact ⟨Nat.zero_le _, by omega⟩
  | case3 rc body h1 h2 h3 ih =>
    obtain ⟨ih1, ih2⟩ := ih
    rw [fetchArticleScore_throttle_retry h1 h2 h3]
    dsimp only
    have hs := Finset.sum_eq_sum_Ico_succ_bot h3
      (fun i => cfg.retryDelay * 2 ^ i)
    exact ⟨by rw [hs]; exact Nat.add_le_add_left ih1 _, by omega⟩
  | case4 rc body h1 h2 h3 =>
    rw [fetchArticleScore_throttle_exhausted h1 h2 h3]
    dsimp only
    exact ⟨Nat.zero_le _, by omega⟩
  | case5 rc body h1 h2 v h3 =>
    rw [fetchArticleScore_success h1 (by simpa using h2) h3]
    dsimp only
    exact ⟨Nat.zero_le _, by omega⟩
  | case6 rc body h1 h2 msg h3 h ih =>
    obtain ⟨ih1, ih2⟩ := ih
    rw [fetchArticleScore_parseError_retry h1 (by simpa using h2) h3 h]
    dsimp only
    have hs := Finset.sum_eq_sum_Ico_succ_bot h.1
      (fun i => cfg.retryDelay * 2 ^ i)
    have h1lt := h.1
    exact ⟨by rw [hs]; exact Nat.add_le_add_left ih1 _, by omega⟩
  | case7 rc body h1 h2 msg h3 h =>
    rw [fetchArticleScore_parseError_stop h1 (by simpa using h2) h3 h]
    dsimp only
    exact ⟨Nat.zero_le _, by omega⟩

/-- C4: the total backoff delay slept by a `fetchArticleScore` run is bounded
by `∑ i < maxRetries, retryDelay * 2 ^ i`, and the retry loop terminates
after at most `maxRetries + 1` fetch attempts. -/
theorem fetchArticleScore_backoff_bounded (cfg : Config)
    (resp : Nat → FetchResponse) :
    (fetchArticleScore cfg resp 0).slept ≤
      ∑ i in Finset.range cfg.maxRetries, cfg.retryDelay * 2 ^ i ∧
    (fetchArticleScore cfg resp 0).attempts ≤ cfg.maxRetries + 1 := by
  have h := fetchArticleScore_bounds cfg resp 0
  rw [Finset.range_eq_Ico]
  exact ⟨h.1, by omega⟩

/-! ### Claim C3 -/

/-- C3 counterexample: a non-throttled response that is valid JSON whose
`score` field is a non-numeric string makes `fetchArticleScore` resolve
`parseInt("high", 10) = NaN` — not an integer, and not `0`. -/
theorem fetchArticleScore_nan_counterexample :
    (fetchArticleScore CONFIG
      (fun _ => .ok "\x7b\"score\": \"high\"\x7d") 0).score = JsNum.nan := by
  rw [fetchArticleScore_success rfl (by decide)
    (show bodyScore "\x7b\"score\": \"high\"\x7d" = Except.ok JsNum.nan from rfl)]

/-- C3 (amended): `fetchArticleScore` never throws: on every response trace
it resolves.  Either the run terminates on a success path — a non-throttled
response whose body parses and whose coerced `score` value (an integer, or
`NaN` exactly when the field coerces to `NaN`) is returned verbatim — or the
run took an irrecoverable path (throttle exhaustion, a non-retryable error,
or parse-retry exhaustion) and the resolved score is the `0` sentinel.
In particular a `NaN` result can only come from a non-throttled valid-JSON
body whose `score` field coerces to `NaN`. -/
theorem fetchArticleScore_always_resolves (cfg : Config)
    (resp : Nat → FetchResponse) (rc : Nat) :
    ((∃ j body v, resp j = .ok body ∧ isThrottledResponse body = false ∧
        bodyScore body = .ok v ∧ (fetchArticleScore cfg resp rc).score = v) ∨
      (fetchArticleScore cfg resp rc).score = .int 0) ∧
    ((fetchArticleScore cfg resp rc).score = .nan →
      ∃ j body, resp j = .ok body ∧ isThrottledResponse body = false ∧
        bodyScore body = .ok .nan) := by
  have main : (∃ j body v, resp j = .ok body ∧ isThrottledResponse body = false ∧
      bodyScore body = .ok v ∧ (fetchArticleScore cfg resp rc).score = v) ∨
      (fetchArticleScore cfg resp rc).score = .int 0 := by
    induction rc using fetchArticleScore.induct cfg resp with
    | case1 rc msg h1 h ih =>
      rw [fetchArticleScore_netError_retry h1 h]
      dsimp only
      exact ih
    | case2 rc msg h1 h =>
      rw [fetchArticleScore_netError_stop h1 h]
      exact .inr rfl
    | case3 rc body h1 h2 h3 ih =>
      rw [fetchArticleScore_throttle_retry h1 h2 h3]
      dsimp only
      exact ih
    | case4 rc body h1 h2 h3 =>
      rw [fetchArticleScore_throttle_exhausted h1 h2 h3]
      exact .inr rfl
    | case5 rc body h1 h2 v h3 =>
      rw [fetchArticleScore_success h1 (by simpa using h2) h3]
      exact .inl ⟨rc, body, v, h1, by simpa using h2, h3, rfl⟩
    | case6 rc body h1 h2 msg h3 h ih =>
      rw [fetchArticleScore_parseError_retry h1 (by simpa using h2) h3 h]
      dsimp only
      exact ih
    | case7 rc body h1 h2 msg h3 h =>
      rw [fetchArticleScore_parseError_stop h1 (by simpa using h2) h3 h]
      exact .inr rfl
  refine ⟨main, ?_⟩
  intro hnan
  rcases main with ⟨j, body, v, hj, ht, hb, hs⟩ | h0
  · have hv : v = JsNum.nan := by rw [← hs, hnan]
    exact ⟨j, body, hj, ht, hv ▸ hb⟩
  · rw [h0] at hnan
    exact absurd hnan (by decide)

/-- Witness for the amended C3 on an always-throttled trace, exercising the
irrecoverable-condition branch: the run resolves the `0` sentinel. -/
theorem fetchArticleScore_always_resolves_witness :
    ((∃ j body v, (fun _ : Nat => FetchResponse.ok "Throttled") j = .ok body ∧
        isThrottledResponse body = false ∧ bodyScore body = .ok v ∧
        (fetchArticleScore CONFIG (fun _ => .ok "Throttled") 0).score = v) ∨
      (fetchArticleScore CONFIG (fun _ => .ok "Throttled") 0).score = .int 0) ∧
    ((fetchArticleScore CONFIG (fun _ => .ok "Throttled") 0).score = .nan →
      ∃ j body, (fun _ : Nat => FetchResponse.ok "Throttled") j = .ok body ∧
        isThrottledResponse body = false ∧ bodyScore body = .ok .nan) :=
  fetchArticleScore_always_resolves CONFIG (fun _ => .ok "Throttled") 0

/-! ### Articles and XML escaping -/

/-- An article as produced by `parseArticleFromXml`. -/
structure Article where
  title : String
  author : String
  link : String
  comments : String
  published : String
  guid : String
deriving Repr, DecidableEq

/-- An article enriched with its parsed timestamp and fetched score
(`timestamp` is `new Date(published).getTime()`, an integer or `NaN`;
`score` is the fetcher's resolved value). -/
structure ScoredArticle extends Article where
  timestamp : JsNum
  score : JsNum
deriving Repr, DecidableEq

/-- One global single-character regex replacement, as performed by
`str.replace(/c/g, rep)` for a single literal character `c`. -/
def replaceAllChar (c : Char) (rep : List Char) (l : List Char) : List Char :=
  l.flatMap (fun ch => if ch = c then rep else [ch])

/-- `RSSProcessor.escapeXml`: the source's five chained global replacements,
ampersand first. -/
def escapeXml (s : String) : String :=
  String.mk (replaceAllChar apos "&#39;".data
    (replaceAllChar '"' "&quot;".data
      (replaceAllChar '>' "&gt;".data
        (replaceAllChar '<' "&lt;".data
          (replaceAllChar '&' "&amp;".data s.data)))))

/-- The single-pass escape table of the spec: each reserved character maps to
its entity, every other character to itself. -/
def escapeChar (c : Char) : List Char :=
  if c = '&' then "&amp;".data
  else if c = '<' then "&lt;".data
  else if c = '>' then "&gt;".data
  else if c = '"' then "&quot;".data
  else if c = apos then "&#39;".data
  else [c]

/-- The chained replacements amount to one single pass with `escapeChar`:
later replacements never touch the entities introduced by earlier ones, so
no character is escaped twice. -/
theorem escapeXml_singlePass (s : String) :
    escapeXml s = String.mk (s.data.flatMap escapeChar) := by
  unfold escapeXml replaceAllChar
  rw [List.flatMap_assoc, List.flatMap_assoc, List.flatMap_assoc,
    List.flatMap_assoc]
  congr 1
  apply List.flatMap_congr
  intro c hc
  by_cases h1 : c = '&'
  · subst h1; decide
  · by_cases h2 : c = '<'
    · subst h2; decide
    · by_cases h3 : c = '>'
      · subst h3; decide
      · by_cases h4 : c = '"'
        · subst h4; decide
        · by_cases h5 : c = apos
          · subst h5; decide
          · simp [escapeChar, h1, h2, h3, h4, h5]

/-- `RSSProcessor.generateRssItem`: the item template, escaping every text
field except `published`. -/
def generateRssItem (a : ScoredArticle) : String :=
  "\t<item>\n\t\t<title>" ++ escapeXml a.title ++
  "</title>\n\t\t<author>" ++ escapeXml a.author ++
  "</author>\n\t\t<link>" ++ escapeXml a.link ++
  "</link>\n\t\t<comments>" ++ escapeXml a.comments ++
  "</comments>\n\t\t<wfw:commentRss>" ++ escapeXml a.comments ++
  "</wfw:commentRss>\n\t\t<guid isPermaLink=\"false\">" ++ escapeXml a.guid ++
  "</guid>\n\t\t<pubDate>" ++ a.published ++
  "</pubDate>\n\t</item>"

/-! ### Claim C7 -/

/-- C7: in the serialized item every reserved character of the `title`,
`author`, `link`, `comments` and `guid` fields appears as exactly one pass of
the spec's escape table (`escapeChar`), so each occurrence is correctly
escaped and none is double-escaped, while `published` is emitted verbatim. -/
theorem generateRssItem_escapes_once (a : ScoredArticle) :
    generateRssItem a =
      "\t<item>\n\t\t<title>" ++ String.mk (a.title.data.flatMap escapeChar) ++
      "</title>\n\t\t<author>" ++ String.mk (a.author.data.flatMap escapeChar) ++
      "</author>\n\t\t<link>" ++ String.mk (a.link.data.flatMap escapeChar) ++
      "</link>\n\t\t<comments>" ++ String.mk (a.comments.data.flatMap escapeChar) ++
      "</comments>\n\t\t<wfw:commentRss>" ++ String.mk (a.comments.data.flatMap escapeChar) ++
      "</wfw:commentRss>\n\t\t<guid isPermaLink=\"false\">" ++ String.mk (a.guid.data.flatMap escapeChar) ++
      "</guid>\n\t\t<pubDate>" ++ a.published ++
      "</pubDate>\n\t</item>" := by
  rw [generateRssItem]
  simp only [escapeXml_singlePass]

/-! ### Filtering and sorting (`writeArticlesFeed`)

`Array.prototype.sort` with comparator `(a, b) => b.timestamp - a.timestamp`
is modelled by the stable `List.mergeSort` (ECMAScript requires sort to be
stable) under the comparator-induced order: `a` may stay before `b` exactly
when the comparator value is `≤ 0`, and a `NaN` comparator value is coerced
to `+0` — a tie — per the `CompareArrayElements` step of the spec. -/

/-- The order induced by the comparator `(a, b) => b.timestamp - a.timestamp`:
`true` when `a` need not be placed after `b` (comparator value `≤ 0`, with a
`NaN` value counting as a tie). -/
def tsCompareLe (a b : ScoredArticle) : Bool :=
  match b.timestamp, a.timestamp with
  | .nan, _ => true
  | _, .nan => true
  | .int tb, .int ta => decide (tb - ta ≤ 0)

/-- JS `score > minimumScore` (false when `score` is `NaN`). -/
def jsGreaterThan (x : JsNum) (m : Int) : Bool :=
  match x with
  | .nan => false
  | .int s => decide (m < s)

/-- JS `x >= y` on the modelled numbers: false whenever either side is NaN. -/
def jsNumGe (x y : JsNum) : Bool :=
  match x, y with
  | .int a, .int b => decide (b ≤ a)
  | _, _ => false

/-- The `filter`-then-stable-`sort` pipeline of `writeArticlesFeed`. -/
def filteredAndSorted (cfg : Config) (articles : List ScoredArticle) :
    List ScoredArticle :=
  (articles.filter (fun a => jsGreaterThan a.score cfg.minimumScore)).mergeSort
    tsCompareLe

/-- The fixed document prologue emitted by `writeArticlesFeed`. -/
def rssHeader : String :=
  "<?xml version=\"1.0\" encoding=\"UTF-8\"?>\n<rss version=\"2.0\" xmlns:atom=\"http://www.w3.org/2005/Atom\" xmlns:wfw=\"http://wellformedweb.org/CommentAPI/\" xmlns:slash=\"http://purl.org/rss/1.0/modules/slash/\">\n\t<channel>\n\t\t<title>Lobsters</title>\n\t\t<link>https://lobste.rs</link>\n\t\t<description></description>\n"

/-- The fixed document epilogue emitted by `writeArticlesFeed`. -/
def rssFooter : String := "\n\t</channel>\n</rss>"

/-- `RSSProcessor.writeArticlesFeed`: filter by score, sort by timestamp
descending, serialize each item and join with newlines inside the fixed
document template. -/
def writeArticlesFeed (cfg : Config) (articles : List ScoredArticle) : String :=
  rssHeader ++
    String.intercalate "\n" ((filteredAndSorted cfg articles).map generateRssItem) ++
    rssFooter

/-- `merge` only inspects the order on pairs drawn from its two inputs. -/
theorem merge_congr {α : Type} {le le' : α → α → Bool} :
    ∀ {xs ys : List α}, (∀ a ∈ xs, ∀ b ∈ ys, le a b = le' a b) →
      List.merge xs ys le = List.merge xs ys le'
  | [], ys, _ => by simp
  | x :: xs, [], _ => by simp
  | x :: xs, y :: ys, h => by
    simp only [List.merge]
    rw [h x (List.mem_cons_self x xs) y (List.mem_cons_self y ys)]
    by_cases hle : le' x y = true
    · rw [if_pos hle, if_pos hle]
      exact congrArg _ (merge_congr fun a ha b hb =>
        h a (List.mem_cons_of_mem x ha) b hb)
    · rw [if_neg hle, if_neg hle]
      exact congrArg _ (merge_congr fun a ha b hb =>
        h a ha b (List.mem_cons_of_mem y hb))
termination_by xs ys => xs.length + ys.length

/-- `mergeSort` only inspects the order on pairs drawn from its input, so two
comparators that agree on the list give the same result. -/
theorem mergeSort_congr {α : Type} {le le' : α → α → Bool} :
    ∀ (l : List α), (∀ a ∈ l, ∀ b ∈ l, le a b = le' a b) →
      l.mergeSort le = l.mergeSort le'
  | [], _ => by simp
  | [a], _ => by simp
  | a :: b :: xs, h => by
    have hl1 : (List.splitInTwo ⟨a :: b :: xs, rfl⟩).1.1.length < xs.length + 1 + 1 := by
      simp [List.splitInTwo_fst]
      omega
    have hl2 : (List.splitInTwo ⟨a :: b :: xs, rfl⟩).2.1.length < xs.length + 1 + 1 := by
      simp [List.splitInTwo_snd]
      omega
    have hmem1 : ∀ x ∈ (List.splitInTwo ⟨a :: b :: xs, rfl⟩).1.1, x ∈ a :: b :: xs := by
      intro x hx
      rw [List.splitInTwo_fst] at hx
      exact List.take_subset _ _ hx
    have hmem2 : ∀ x ∈ (List.splitInTwo ⟨a :: b :: xs, rfl⟩).2.1, x ∈ a :: b :: xs := by
      intro x hx
      rw [List.splitInTwo_snd] at hx
      exact List.drop_subset _ _ hx
    rw [List.mergeSort, List.mergeSort]
    rw [mergeSort_congr (List.splitInTwo ⟨a :: b :: xs, rfl⟩).1.1
        (fun p hp q hq => h p (hmem1 p hp) q (hmem1 q hq)),
      mergeSort_congr (List.splitInTwo ⟨a :: b :: xs, rfl⟩).2.1
        (fun p hp q hq => h p (hmem2 p hp) q (hmem2 q hq))]
    exact merge_congr fun p hp q hq =>
      h p (hmem1 p (List.mem_mergeSort.mp hp)) q (hmem2 q (List.mem_mergeSort.mp hq))
termination_by l => l.length

/-- The integer key underlying the comparator on NaN-free articles (`NaN` is
arbitrarily keyed `0`; it never occurs under the hypotheses that use this
key). -/
def tsKey (a : ScoredArticle) : Int :=
  match a.timestamp with
  | .int n => n
  | .nan => 0

/-- A transitive total surrogate for `tsCompareLe`, agreeing with it on
articles whose timestamps are not `NaN`. -/
def tsKeyLe (a b : ScoredArticle) : Bool :=
  decide (tsKey b ≤ tsKey a)

/-- On non-`NaN` timestamps the comparator order is the key order. -/
theorem tsCompareLe_eq_tsKeyLe {a b : ScoredArticle}
    (ha : a.timestamp ≠ JsNum.nan) (hb : b.timestamp ≠ JsNum.nan) :
    tsCompareLe a b = tsKeyLe a b := by
  cases hA : a.timestamp with
  | nan => exact absurd hA ha
  | int ta =>
    cases hB : b.timestamp with
    | nan => exact absurd hB hb
    | int tb =>
      simp only [tsCompareLe, tsKeyLe, tsKey, hA, hB, decide_eq_decide]
      omega

/-- `tsKeyLe` is transitive. -/
theorem tsKeyLe_trans (a b c : ScoredArticle) :
    tsKeyLe a b → tsKeyLe b c → tsKeyLe a c := by
  simp only [tsKeyLe, decide_eq_true_eq]
  omega

/-- `tsKeyLe` is total. -/
theorem tsKeyLe_total (a b : ScoredArticle) : tsKeyLe a b || tsKeyLe b a := by
  simp only [tsKeyLe, Bool.or_eq_true, decide_eq_true_eq]
  omega

/-! ### Claim C5 -/

/-- C5 counterexample: with an unparseable (`NaN`) timestamp in the input,
the emitted order is not non-increasing in timestamp: the `NaN` article stays
first (its comparisons are ties) and is followed by numerically ordered
articles, so the first adjacent pair violates `>=`. -/
def cexNan : ScoredArticle :=
  ⟨⟨"N", "uN", "lN", "cN", "pN", "gN"⟩, .nan, .int 20⟩

/-- A scored article with timestamp 5 for the sort counterexamples. -/
def cexB5 : ScoredArticle :=
  ⟨⟨"B", "uB", "lB", "cB", "pB", "gB"⟩, .int 5, .int 20⟩

/-- A scored article with timestamp 9 for the sort counterexamples. -/
def cexC9 : ScoredArticle :=
  ⟨⟨"C", "uC", "lC", "cC", "pC", "gC"⟩, .int 9, .int 20⟩

/-- The sorted output on `[cexNan, cexB5, cexC9]` keeps the `NaN` article
first. -/
theorem filteredAndSorted_nan_example :
    filteredAndSorted CONFIG [cexNan, cexB5, cexC9] = [cexNan, cexC9, cexB5] := by
  have hf : [cexNan, cexB5, cexC9].filter
      (fun a => jsGreaterThan a.score CONFIG.minimumScore) =
      [cexNan, cexB5, cexC9] := by decide
  rw [filteredAndSorted, hf]
  rw [List.mergeSort]
  simp only [List.splitInTwo_fst, List.splitInTwo_snd]
  norm_num
  rw [List.mergeSort]
  simp [List.splitInTwo_fst, List.splitInTwo_snd, List.merge, tsCompareLe,
    cexNan, cexB5, cexC9]

/-- C5 counterexample: the claim's universally quantified ordering property
fails on a list containing a `NaN` timestamp — the serialized order is not
non-increasing in timestamp (`NaN >= 9` does not hold). -/
theorem writeArticlesFeed_order_counterexample :
    ¬ (filteredAndSorted CONFIG [cexNan, cexB5, cexC9]).Pairwise
        (fun a b => jsNumGe a.timestamp b.timestamp = true) := by
  rw [filteredAndSorted_nan_example]
  intro h
  have h1 := (List.pairwise_cons.mp h).1 cexC9 (List.mem_cons_self _ _)
  exact absurd h1 (by decide)

/-- C5 (amended): for every list of scored articles whose timestamps are all
numeric (no `NaN`), the serialized document consists of the filtered-sorted
items; that item list is non-increasing in timestamp, every emitted article
has `score > minimumScore` strictly, and articles with equal timestamps keep
their relative feed order (stability). -/
theorem writeArticlesFeed_order (cfg : Config) (articles : List ScoredArticle)
    (hts : ∀ a ∈ articles, a.timestamp ≠ JsNum.nan) :
    writeArticlesFeed cfg articles =
      rssHeader ++
        String.intercalate "\n"
          ((filteredAndSorted cfg articles).map generateRssItem) ++ rssFooter ∧
    (filteredAndSorted cfg articles).Pairwise
      (fun a b => jsNumGe a.timestamp b.timestamp = true) ∧
    (∀ a ∈ filteredAndSorted cfg articles,
      ∃ s : Int, a.score = .int s ∧ cfg.minimumScore < s) ∧
    (∀ a b : ScoredArticle, a.timestamp = b.timestamp →
      [a, b].Sublist
        (articles.filter (fun x => jsGreaterThan x.score cfg.minimumScore)) →
      [a, b].Sublist (filteredAndSorted cfg articles)) := by
  set fl := articles.filter (fun x => jsGreaterThan x.score cfg.minimumScore)
    with hfl
  have hflts : ∀ a ∈ fl, a.timestamp ≠ JsNum.nan := by
    intro a ha
    exact hts a (List.mem_of_mem_filter ha)
  have hcongr : fl.mergeSort tsCompareLe = fl.mergeSort tsKeyLe :=
    mergeSort_congr fl fun a ha b hb =>
      tsCompareLe_eq_tsKeyLe (hflts a ha) (hflts b hb)
  refine ⟨rfl, ?_, ?_, ?_⟩
  · rw [filteredAndSorted, ← hfl, hcongr]
    have hp := List.sorted_mergeSort tsKeyLe_trans tsKeyLe_total fl
    refine hp.imp_of_mem ?_
    intro a b ha hb hab
    have hanan := hflts a (List.mem_mergeSort.mp ha)
    have hbnan := hflts b (List.mem_mergeSort.mp hb)
    cases hA : a.timestamp with
    | nan => exact absurd hA hanan
    | int ta =>
      cases hB : b.timestamp with
      | nan => exact absurd hB hbnan
      | int tb =>
        simp only [tsKeyLe, tsKey, hA, hB, decide_eq_true_eq] at hab
        simp only [jsNumGe, decide_eq_true_eq]
        omega
  · intro a ha
    have ham := List.mem_mergeSort.mp ha
    have hp := List.of_mem_filter ham
    cases hS : a.score with
    | nan => rw [hS] at hp; exact absurd hp (by simp [jsGreaterThan])
    | int s =>
      rw [hS] at hp
      simp only [jsGreaterThan, decide_eq_true_eq] at hp
      exact ⟨s, rfl, hp⟩
  · intro a b htseq hsub
    rw [filteredAndSorted, ← hfl, hcongr]
    apply List.sublist_mergeSort tsKeyLe_trans tsKeyLe_total ?_ hsub
    have : tsKeyLe a b = true := by
      simp only [tsKeyLe, tsKey, htseq, decide_eq_true_eq]
      omega
    exact List.pairwise_pair.mpr this

/-- Concrete articles for the C5 witness (two timestamp ties, one below the
score threshold). -/
def c5List : List ScoredArticle :=
  [⟨⟨"A", "uA", "lA", "cA", "pA", "gA"⟩, .int 5, .int 20⟩,
   ⟨⟨"B", "uB", "lB", "cB", "pB", "gB"⟩, .int 9, .int 15⟩,
   ⟨⟨"C", "uC", "lC", "cC", "pC", "gC"⟩, .int 5, .int 11⟩,
   ⟨⟨"D", "uD", "lD", "cD", "pD", "gD"⟩, .int 9, .int 3⟩]

/-- Witness for the amended C5 on a concrete NaN-free list. -/
theorem writeArticlesFeed_order_witness :
    (∀ a ∈ c5List, a.timestamp ≠ JsNum.nan) ∧
    (writeArticlesFeed CONFIG c5List =
      rssHeader ++
        String.intercalate "\n"
          ((filteredAndSorted CONFIG c5List).map generateRssItem) ++ rssFooter ∧
    (filteredAndSorted CONFIG c5List).Pairwise
      (fun a b => jsNumGe a.timestamp b.timestamp = true) ∧
    (∀ a ∈ filteredAndSorted CONFIG c5List,
      ∃ s : Int, a.score = .int s ∧ CONFIG.minimumScore < s) ∧
    (∀ a b : ScoredArticle, a.timestamp = b.timestamp →
      [a, b].Sublist
        (c5List.filter (fun x => jsGreaterThan x.score CONFIG.minimumScore)) →
      [a, b].Sublist (filteredAndSorted CONFIG c5List))) :=
  ⟨by decide, writeArticlesFeed_order CONFIG c5List (by decide)⟩

/-! ### Claim C6 -/

/-- C6 counterexample: the sort does not place a `NaN`-timestamp article
last.  With input `[cexNan, cexB5]` (NaN first, then timestamp 5, both above
the score threshold) the comparator returns `NaN`, coerced to a tie, so the
stable sort keeps the `NaN` article first — the output is not the
`NaN`-last order `[cexB5, cexNan]`. -/
theorem writeArticlesFeed_nan_not_last :
    filteredAndSorted CONFIG [cexNan, cexB5] = [cexNan, cexB5] ∧
    ([cexNan, cexB5] : List ScoredArticle) ≠ [cexB5, cexNan] := by
  constructor
  · have hf : [cexNan, cexB5].filter
        (fun a => jsGreaterThan a.score CONFIG.minimumScore) =
        [cexNan, cexB5] := by decide
    rw [filteredAndSorted, hf]
    rw [List.mergeSort]
    simp [List.splitInTwo_fst, List.splitInTwo_snd, List.merge, tsCompareLe,
      cexNan, cexB5]
  · decide

/-- C6 (amended): a comparison involving a `NaN` timestamp is a tie in both
directions (the comparator's `NaN` result is coerced to `+0`), so the
comparator does not define a total order with `NaN` minimal; a
`NaN`-timestamp article keeps its relative input position rather than being
placed last, as witnessed on two-element inputs. -/
theorem tsCompare_nan_is_tie (cfg : Config) (a b : ScoredArticle)
    (hsa : jsGreaterThan a.score cfg.minimumScore = true)
    (hsb : jsGreaterThan b.score cfg.minimumScore = true)
    (ha : a.timestamp = JsNum.nan) :
    tsCompareLe a b = true ∧ tsCompareLe b a = true ∧
    filteredAndSorted cfg [a, b] = [a, b] := by
  have h1 : tsCompareLe a b = true := by
    cases hb : b.timestamp with
    | nan => simp [tsCompareLe, ha, hb]
    | int tb => simp [tsCompareLe, ha, hb]
  have h2 : tsCompareLe b a = true := by
    cases hb : b.timestamp with
    | nan => simp [tsCompareLe, ha, hb]
    | int tb => simp [tsCompareLe, ha, hb]
  refine ⟨h1, h2, ?_⟩
  have hf : [a, b].filter (fun x => jsGreaterThan x.score cfg.minimumScore) =
      [a, b] := by
    simp [List.filter, hsa, hsb]
  rw [filteredAndSorted, hf]
  rw [List.mergeSort]
  simp [List.splitInTwo_fst, List.splitInTwo_snd, List.merge, h1]

/-- Witness for the amended C6 at concrete articles. -/
theorem tsCompare_nan_is_tie_witness :
    (jsGreaterThan cexNan.score CONFIG.minimumScore = true ∧
     jsGreaterThan cexB5.score CONFIG.minimumScore = true ∧
     cexNan.timestamp = JsNum.nan) ∧
    (tsCompareLe cexNan cexB5 = true ∧ tsCompareLe cexB5 cexNan = true ∧
     filteredAndSorted CONFIG [cexNan, cexB5] = [cexNan, cexB5]) :=
  ⟨⟨by decide, by decide, by decide⟩,
   tsCompare_nan_is_tie CONFIG cexNan cexB5 (by decide) (by decide) (by decide)⟩

/-! ### Feed parsing (`extractTextContent`, item extraction, `fetchAllArticles`)

The two regexes of the source are modelled by explicit scanners with the
same semantics: `<tag[^>]*>([\s\S]*?)</tag>` (case-insensitive, first match)
for `extractTextContent`, and the global, case-insensitive, non-greedy
`<item[^>]*>([\s\S]*?)<\/item>` for item extraction. -/

/-- Case-insensitive literal match at the head: returns the consumed
characters (original case) and the rest. -/
def matchLitCI : List Char → List Char → Option (List Char × List Char)
  | [], hay => some ([], hay)
  | _ :: _, [] => none
  | n :: ns, h :: hs =>
    if n.toLower == h.toLower then
      (matchLitCI ns hs).map (fun r => (h :: r.1, r.2))
    else none

/-- `[^>]*>`: consume up to and including the first `>`; `none` if there is
none (the regex position then fails). -/
def consumeToGt : List Char → Option (List Char × List Char)
  | [] => none
  | c :: cs =>
    if c == '>' then some ([c], cs)
    else (consumeToGt cs).map (fun r => (c :: r.1, r.2))

/-- Non-greedy search for the closing literal (case-insensitive): the
shortest prefix before the first occurrence, the consumed closing text, and
the rest after it. -/
def findCloseCI (close : List Char) :
    List Char → Option (List Char × List Char × List Char)
  | [] => none
  | c :: cs =>
    match matchLitCI close (c :: cs) with
    | some (k, rest) => some ([], k, rest)
    | none => (findCloseCI close cs).map (fun r => (c :: r.1, r.2.1, r.2.2))

/-- Match `<tag[^>]*>([\s\S]*?)</tag>` (case-insensitive) at the head,
returning the captured group. -/
def matchTagAt (tag : List Char) (cs : List Char) : Option (List Char) :=
  match matchLitCI ('<' :: tag) cs with
  | none => none
  | some (_, r1) =>
    match consumeToGt r1 with
    | none => none
    | some (_, r2) =>
      match findCloseCI ('<' :: '/' :: (tag ++ ['>'])) r2 with
      | some (content, _, _) => some content
      | none => none

/-- First match of the tag regex anywhere in the input (the engine advances
one character after each failed position). -/
def firstTagContent (tag : List Char) : Nat → List Char → Option (List Char)
  | 0, _ => none
  | _ + 1, [] => none
  | fuel + 1, c :: t =>
    match matchTagAt tag (c :: t) with
    | some content => some content
    | none => firstTagContent tag fuel t

/-- `RSSProcessor.extractTextContent`: trimmed text of the first
`<tag ...>...</tag>` occurrence, empty string if absent. -/
def extractTextContent (xml : String) (tag : String) : String :=
  match firstTagContent tag.data (xml.data.length + 1) xml.data with
  | some content => (String.mk content).trim
  | none => ""

/-- Match the whole item regex at the head: the full match text and the rest
after it. -/
def matchItemAt (cs : List Char) : Option (List Char × List Char) :=
  match matchLitCI "<item".data cs with
  | none => none
  | some (o1, r1) =>
    match consumeToGt r1 with
    | none => none
    | some (o2, r2) =>
      match findCloseCI "</item>".data r2 with
      | none => none
      | some (content, closeTxt, rest) =>
        some (o1 ++ o2 ++ content ++ closeTxt, rest)

/-- All matches of the global item regex, scanning left to right and
resuming after each match.  Fuel-indexed; every step consumes at least one
character, so the initial fuel `length + 1` never runs out. -/
def scanItemsAux : Nat → List Char → List String
  | 0, _ => []
  | _ + 1, [] => []
  | fuel + 1, c :: t =>
    match matchItemAt (c :: t) with
    | some (full, rest) => String.mk full :: scanItemsAux fuel rest
    | none => scanItemsAux fuel t

/-- `xmlText.match(/<item[^>]*>([\s\S]*?)<\/item>/gi) || []`. -/
def scanItems (cs : List Char) : List String :=
  scanItemsAux (cs.length + 1) cs

/-- `RSSProcessor.parseArticleFromXml`: extract the six fields, keeping only
the local part of the author (split on `@`, first segment). -/
def parseArticleFromXml (itemXml : String) : Article :=
  { title := extractTextContent itemXml "title"
    author := ((extractTextContent itemXml "author").splitOn "@").headD ""
    link := extractTextContent itemXml "link"
    comments := extractTextContent itemXml "comments"
    published := extractTextContent itemXml "pubDate"
    guid := extractTextContent itemXml "guid" }

/-- `RSSProcessor.fetchAllArticles`.  The feed fetch outcome, the per-article
score-fetch traces (indexed by article position) and the runtime's
`new Date(published).getTime()` are environment parameters.  A throw from the
feed fetch or body read lands in the catch, which returns the empty list;
otherwise items are extracted with the global item regex (no matches giving
`[]`), parsed, kept when `comments` is non-empty (JS truthiness), and scored
sequentially (the score fetcher itself never throws). -/
def fetchAllArticles (cfg : Config) (feed : FetchResponse)
    (scoreResp : Nat → Nat → FetchResponse) (parseDate : String → JsNum) :
    List ScoredArticle :=
  match feed with
  | .netError _ => []
  | .ok xmlText =>
    let items := scanItems xmlText.data
    let parsedArticles := (items.map parseArticleFromXml).filter
      (fun a => a.comments != "")
    parsedArticles.enum.map fun p =>
      { toArticle := p.2
        timestamp := parseDate p.2.published
        score := (fetchArticleScore cfg (scoreResp p.1) 0).score }

/-! ### Claim C8 -/

/-- C8: a failed feed fetch (HTTP GET or body read throwing) yields the
empty article list instead of propagating the error, and a feed body with no
`<item>` fragments yields the empty list as well. -/
theorem fetchAllArticles_degrades (cfg : Config)
    (scoreResp : Nat → Nat → FetchResponse) (parseDate : String → JsNum) :
    (∀ msg, fetchAllArticles cfg (.netError msg) scoreResp parseDate = []) ∧
    (∀ xml : String, scanItems xml.data = [] →
      fetchAllArticles cfg (.ok xml) scoreResp parseDate = []) := by
  constructor
  · intro msg
    rfl
  · intro xml h
    simp [fetchAllArticles, h]

/-- Witness for C8: a failed fetch and an item-free feed body. -/
theorem fetchAllArticles_degrades_witness :
    fetchAllArticles CONFIG (.netError "fetch failed")
      (fun _ _ => .netError "x") (fun _ => .nan) = [] ∧
    scanItems "<rss><channel></channel></rss>".data = [] ∧
    fetchAllArticles CONFIG (.ok "<rss><channel></channel></rss>")
      (fun _ _ => .netError "x") (fun _ => .nan) = [] :=
  ⟨(fetchAllArticles_degrades CONFIG _ _).1 "fetch failed",
   by decide,
   (fetchAllArticles_degrades CONFIG _ _).2 "<rss><channel></channel></rss>"
     (by decide)⟩

/-! ### The request handler (`fetch`) and the cache policy -/

/-- The request data the handler inspects: `url.protocol`, `url.host`,
`url.pathname`, and the presence of the `force_refresh` / `clear_cache`
query parameters. -/
structure RequestInfo where
  protocol : String
  host : String
  pathname : String
  hasForceRefresh : Bool
  hasClearCache : Bool
deriving Repr, DecidableEq

/-- A store operation performed on `env.RSS_CACHE` (`del` models
`delete`). -/
inductive StoreOp where
  | get (key : String)
  | put (key : String) (value : String) (ttlSeconds : Nat)
  | del (key : String)
deriving Repr, DecidableEq

/-- An HTTP response as the handler builds it. -/
structure WorkerResponse where
  status : Nat
  body : String
  headers : List (String × String)
deriving Repr, DecidableEq

/-- The worker's `fetch` handler.  `cached` is what `RSS_CACHE.get(cacheKey)`
returns (`none` when absent); `feed`, `scoreResp` and `parseDate`
parameterize the pipeline as in `fetchAllArticles`.  Returns the response
and the store operations performed, in order.  Store operations are
modelled as succeeding (the 500 path of the source is reached only by store
or pipeline throws, which the model does not produce). -/
def workerFetch (req : RequestInfo) (cached : Option String)
    (feed : FetchResponse) (scoreResp : Nat → Nat → FetchResponse)
    (parseDate : String → JsNum) : WorkerResponse × List StoreOp :=
  let forceRefresh := req.hasForceRefresh || req.hasClearCache
  if req.pathname = "/clear-cache" then
    (⟨200, "Cache cleared successfully", [("Content-Type", "text/plain")]⟩,
     [.del CONFIG.cacheKey])
  else if req.pathname = "/index.xml" then
    (⟨302, "", [("Location", req.protocol ++ "//" ++ req.host ++ "/")]⟩, [])
  else
    let readOps : List StoreOp :=
      if !forceRefresh then [.get CONFIG.cacheKey] else []
    let hit : Option String :=
      if !forceRefresh then
        match cached with
        | some s => if s = "" then none else some s
        | none => none
      else none
    match hit with
    | some cachedFeed =>
      (⟨200, cachedFeed,
        [("Content-Type", "application/rss+xml; charset=utf-8"),
         ("Cache-Control", "public, max-age=" ++ toString CONFIG.cacheMaxAge),
         ("X-Cache", "HIT")]⟩, readOps)
    | none =>
      let rssFeed := writeArticlesFeed CONFIG
        (fetchAllArticles CONFIG feed scoreResp parseDate)
      (⟨200, rssFeed,
        [("Content-Type", "application/rss+xml; charset=utf-8"),
         ("Cache-Control", "public, max-age=" ++ toString CONFIG.cacheMaxAge),
         ("X-Cache", "MISS")]⟩,
       readOps ++ [.put CONFIG.cacheKey rssFeed CONFIG.cacheMaxAge])

/-! ### Claim C9 -/

/-- C9 counterexample: a store read that returns a document — the empty
string — is not served with the HIT marker: JS truthiness (`if (cachedFeed)`)
treats `""` as a miss and the handler regenerates, serving MISS. -/
theorem workerFetch_empty_doc_not_hit :
    ("X-Cache", "HIT") ∉
      (workerFetch ⟨"http:", "example.com", "/", false, false⟩ (some "")
        (.netError "down") (fun _ _ => .netError "down") (fun _ => .nan)).1.headers := by
  decide

/-- C9 (amended): for a request to `/`: with a bypass flag set no cache read
is issued; without a bypass a store read returning a non-empty document is
served as-is with the HIT marker and nothing is written; on a miss (absent
or empty-string entry) or bypass the pipeline result is stored under the
configured TTL and served with the MISS marker. -/
theorem workerFetch_cache_policy (req : RequestInfo) (cached : Option String)
    (feed : FetchResponse) (scoreResp : Nat → Nat → FetchResponse)
    (parseDate : String → JsNum)
    (hpath : req.pathname = "/") :
    ((req.hasForceRefresh || req.hasClearCache) = true →
      ∀ k, StoreOp.get k ∉ (workerFetch req cached feed scoreResp parseDate).2) ∧
    ((req.hasForceRefresh || req.hasClearCache) = false →
      ∀ d, cached = some d → d ≠ "" →
        (workerFetch req cached feed scoreResp parseDate).1 =
          ⟨200, d,
           [("Content-Type", "application/rss+xml; charset=utf-8"),
            ("Cache-Control", "public, max-age=" ++ toString CONFIG.cacheMaxAge),
            ("X-Cache", "HIT")]⟩ ∧
        (workerFetch req cached feed scoreResp parseDate).2 =
          [.get CONFIG.cacheKey]) ∧
    (((req.hasForceRefresh || req.hasClearCache) = true ∨ cached = none ∨
        cached = some "") →
      (workerFetch req cached feed scoreResp parseDate).1.body =
        writeArticlesFeed CONFIG (fetchAllArticles CONFIG feed scoreResp parseDate) ∧
      ("X-Cache", "MISS") ∈ (workerFetch req cached feed scoreResp parseDate).1.headers ∧
      StoreOp.put CONFIG.cacheKey
        (writeArticlesFeed CONFIG (fetchAllArticles CONFIG feed scoreResp parseDate))
        CONFIG.cacheMaxAge ∈ (workerFetch req cached feed scoreResp parseDate).2) := by
  obtain ⟨proto, host, path, fr, cc⟩ := req
  simp only at hpath
  subst hpath
  refine ⟨?_, ?_, ?_⟩
  · intro hb k
    simp [workerFetch, hb]
  · intro hb d hcache hne
    subst hcache
    constructor
    · simp [workerFetch, hb, hne]
    · simp [workerFetch, hb, hne]
  · intro hmiss
    rcases hmiss with hb | hnone | hempty
    · refine ⟨?_, ?_, ?_⟩ <;> simp [workerFetch, hb]
    · subst hnone
      refine ⟨?_, ?_, ?_⟩ <;> by_cases hb : (fr || cc) = true <;>
        simp [workerFetch, hb]
    · subst hempty
      refine ⟨?_, ?_, ?_⟩ <;> by_cases hb : (fr || cc) = true <;>
        simp [workerFetch, hb]

/-- Witness for the amended C9 at a concrete request with a populated
cache. -/
theorem workerFetch_cache_policy_witness :
    (RequestInfo.mk "http:" "example.com" "/" false false).pathname = "/" ∧
    (((false || false) = true →
      ∀ k, StoreOp.get k ∉
        (workerFetch ⟨"http:", "example.com", "/", false, false⟩ (some "doc")
          (.netError "down") (fun _ _ => .netError "down") (fun _ => .nan)).2) ∧
    ((false || false) = false →
      ∀ d, (some "doc" : Option String) = some d → d ≠ "" →
        (workerFetch ⟨"http:", "example.com", "/", false, false⟩ (some "doc")
          (.netError "down") (fun _ _ => .netError "down") (fun _ => .nan)).1 =
          ⟨200, d,
           [("Content-Type", "application/rss+xml; charset=utf-8"),
            ("Cache-Control", "public, max-age=" ++ toString CONFIG.cacheMaxAge),
            ("X-Cache", "HIT")]⟩ ∧
        (workerFetch ⟨"http:", "example.com", "/", false, false⟩ (some "doc")
          (.netError "down") (fun _ _ => .netError "down") (fun _ => .nan)).2 =
          [.get CONFIG.cacheKey]) ∧
    (((false || false) = true ∨ (some "doc" : Option String) = none ∨
        (some "doc" : Option String) = some "") →
      (workerFetch ⟨"http:", "example.com", "/", false, false⟩ (some "doc")
        (.netError "down") (fun _ _ => .netError "down") (fun _ => .nan)).1.body =
        writeArticlesFeed CONFIG (fetchAllArticles CONFIG (.netError "down")
          (fun _ _ => .netError "down") (fun _ => .nan)) ∧
      ("X-Cache", "MISS") ∈
        (workerFetch ⟨"http:", "example.com", "/", false, false⟩ (some "doc")
          (.netError "down") (fun _ _ => .netError "down") (fun _ => .nan)).1.headers ∧
      StoreOp.put CONFIG.cacheKey
        (writeArticlesFeed CONFIG (fetchAllArticles CONFIG (.netError "down")
          (fun _ _ => .netError "down") (fun _ => .nan)))
        CONFIG.cacheMaxAge ∈
        (workerFetch ⟨"http:", "example.com", "/", false, false⟩ (some "doc")
          (.netError "down") (fun _ _ => .netError "down") (fun _ => .nan)).2)) :=
  ⟨rfl,
   workerFetch_cache_policy ⟨"http:", "example.com", "/", false, false⟩
     (some "doc") (.netError "down") (fun _ _ => .netError "down")
     (fun _ => .nan) rfl⟩
